import Mathlib

/-!
Verification of the catalog / inventory core of the `ecom` admin back office.

The JavaScript controllers are shallowly embedded as pure Lean functions over
explicit database states.  The relational store is modelled as lists of rows,
a `prisma` transaction as a state-to-state function whose effects are visible
only when the whole body succeeds, and the blob store as a list of stored
object locators.  Operations that can throw `ApiError` return `Except` or pair
the reached state with an optional error, depending on whether the source
commits writes before the failure point.
-/

deriving instance DecidableEq for Except

namespace Ecom

/-! ### JavaScript string primitives

`charsHasSub` models `String.prototype.includes`, `jsTrim` models
`String.prototype.trim` (both over the character list of the string, which the
kernel can evaluate). -/

/-- Does the first character list start with the second? -/
def charsHasPre : List Char → List Char → Bool
  | _, [] => true
  | [], _ :: _ => false
  | a :: s, b :: t => a == b && charsHasPre s t

/-- Does the first character list contain the second as a contiguous run? -/
def charsHasSub : List Char → List Char → Bool
  | [], t => t.isEmpty
  | a :: s, t => charsHasPre (a :: s) t || charsHasSub s t

/-- Model of `s.includes(pat)` from JavaScript. -/
def containsSub (s pat : String) : Bool :=
  charsHasSub s.data pat.data

/-- Model of `s.trim()` from JavaScript. -/
def jsTrim (s : String) : String :=
  ⟨((s.data.dropWhile Char.isWhitespace).reverse.dropWhile Char.isWhitespace).reverse⟩

/-! ### Error values (`ApiError` from `src/server/utils/ApiError.js`) -/

/-- An `ApiError(statusCode, message)` thrown by a controller. -/
structure ApiError where
  status : Nat
  message : String
deriving Repr, DecidableEq

/-! ### Rows of the relational store -/

/-- A `productVariant` row.  The monetary fields `price` and `salePrice` are
floating point in the source and irrelevant to every claim, so they are not
modelled. -/
structure VariantRow where
  id : String
  productId : String
  sku : String
  flavorId : Option String
  weightId : Option String
  quantity : Int
  isActive : Bool
deriving Repr, DecidableEq

/-- An `inventoryLog` row, appended by quantity-changing operations. -/
structure InventoryLogRow where
  variantId : String
  quantityChange : Int
  reason : String
  previousQuantity : Int
  newQuantity : Int
  createdBy : String
  notes : Option String
deriving Repr, DecidableEq

/-! ### Inventory ledger state (`src/server/controllers/inventory.controller.js`) -/

/-- The slice of the store touched by the inventory operations: the variant
table and the inventory log, the latter kept in chronological order with new
entries appended at the end. -/
structure InvState where
  variants : List VariantRow
  logs : List InventoryLogRow
deriving Repr, DecidableEq

/-- `prisma.productVariant.findUnique({ where: { id } })`. -/
def findVariant (st : InvState) (vid : String) : Option VariantRow :=
  st.variants.find? (fun v => v.id == vid)

/-- `prisma.productVariant.update({ where: { id: vid }, data: { quantity: f } })`:
the row with the unique id `vid` gets its quantity replaced by `f` of it. -/
def updateVariantQty (vs : List VariantRow) (vid : String) (f : Int → Int) : List VariantRow :=
  vs.map (fun v => if v.id == vid then { v with quantity := f v.quantity } else v)

/-- `addInventory` (inventory.controller.js, lines 129-195): validate, look up
the variant, then in one transaction increment its quantity and append one
`restock` log entry recording previous and new quantity. -/
def addInventory (st : InvState) (userId vid : String) (quantity : Int)
    (notes : Option String) : Except ApiError InvState :=
  if vid == "" || quantity ≤ 0 then
    .error ⟨400, "Valid variant ID and quantity are required"⟩
  else
    match findVariant st vid with
    | none => .error ⟨404, "Product variant not found"⟩
    | some v =>
        .ok { variants := updateVariantQty st.variants vid (· + quantity),
              logs := st.logs ++
                [{ variantId := vid, quantityChange := quantity, reason := "restock",
                   previousQuantity := v.quantity, newQuantity := v.quantity + quantity,
                   createdBy := userId, notes := notes }] }

/-- `removeInventory` (inventory.controller.js, lines 198-269): validate, look
up the variant, reject when the stock is insufficient, else in one transaction
decrement the quantity and append one log entry with the negative delta.  The
`reason` parameter defaults to `"adjustment"` at the call boundary. -/
def removeInventory (st : InvState) (userId vid : String) (quantity : Int)
    (reason : String) (notes : Option String) : Except ApiError InvState :=
  if vid == "" || quantity ≤ 0 then
    .error ⟨400, "Valid variant ID and quantity are required"⟩
  else
    match findVariant st vid with
    | none => .error ⟨404, "Product variant not found"⟩
    | some v =>
        if v.quantity < quantity then
          .error ⟨400, "Not enough inventory to remove"⟩
        else
          .ok { variants := updateVariantQty st.variants vid (· - quantity),
                logs := st.logs ++
                  [{ variantId := vid, quantityChange := -quantity, reason := reason,
                     previousQuantity := v.quantity, newQuantity := v.quantity - quantity,
                     createdBy := userId, notes := notes }] }

/-- The incoming per-variant payload of `updateProduct` as far as the variant
table is concerned (admin.product.controller.js, lines 960-974). -/
structure ProductUpdateVariantPayload where
  sku : String
  flavorId : Option String
  weightId : Option String
  quantity : Int
  isActive : Bool
deriving Repr, DecidableEq

/-- The existing-variant update performed inside the `updateProduct`
transaction (admin.product.controller.js, lines 960-974): the variant row is
overwritten with the incoming payload, including its `quantity`.  No
`inventoryLog` row is created on this path: the only `inventoryLog.create` in
admin.product.controller.js sits in `updateProductVariant` (line 1675), which
`updateProduct` never calls. -/
def productUpdateExistingVariant (st : InvState) (vid : String)
    (payload : ProductUpdateVariantPayload) : Except ApiError InvState :=
  match findVariant st vid with
  | none => .error ⟨404, "Product variant not found"⟩
  | some _ =>
      .ok { st with
            variants := st.variants.map (fun v =>
              if v.id == vid then
                { v with sku := payload.sku, flavorId := payload.flavorId,
                         weightId := payload.weightId, quantity := payload.quantity,
                         isActive := payload.isActive }
              else v) }

/-- A quantity-changing operation of the system. -/
inductive InvOp where
  | add (userId vid : String) (quantity : Int) (notes : Option String)
  | remove (userId vid : String) (quantity : Int) (reason : String) (notes : Option String)
  | productUpdateVariant (vid : String) (payload : ProductUpdateVariantPayload)
deriving Repr, DecidableEq

/-- The variant a quantity-changing operation addresses. -/
def InvOp.variantId : InvOp → String
  | .add _ vid _ _ => vid
  | .remove _ vid _ _ _ => vid
  | .productUpdateVariant vid _ => vid

/-- Is the operation one of the two ledger operations (`addInventory` /
`removeInventory`)? -/
def InvOp.isLedger : InvOp → Bool
  | .add _ _ _ _ => true
  | .remove _ _ _ _ _ => true
  | .productUpdateVariant _ _ => false

/-- Dispatch one operation against the store. -/
def applyInvOp (st : InvState) : InvOp → Except ApiError InvState
  | .add userId vid q notes => addInventory st userId vid q notes
  | .remove userId vid q reason notes => removeInventory st userId vid q reason notes
  | .productUpdateVariant vid payload => productUpdateExistingVariant st vid payload

/-- Run a sequence of operations; an operation that throws leaves the store
unchanged (its transaction commits nothing), a completed one commits. -/
def runOps (st : InvState) : List InvOp → InvState
  | [] => st
  | op :: rest =>
      runOps (match applyInvOp st op with | .ok st' => st' | .error _ => st) rest

/-- The chronologically ordered log entries of one variant. -/
def logsFor (st : InvState) (vid : String) : List InventoryLogRow :=
  st.logs.filter (fun e => e.variantId == vid)

/-- `chainFromB q0 logs q`: the entries of `logs` form a running-sum chain that
starts at quantity `q0` and ends at quantity `q`, each entry recording the
matching `previousQuantity` and `newQuantity`. -/
def chainFromB (q0 : Int) : List InventoryLogRow → Int → Bool
  | [], q => q == q0
  | e :: rest, q =>
      (e.previousQuantity == q0) && (e.newQuantity == q0 + e.quantityChange) &&
        chainFromB e.newQuantity rest q

/-- The ledger balance invariant for one variant: its log entries chain from
the initial quantity `q0` to the currently persisted quantity. -/
def ledgerChainB (st : InvState) (vid : String) (q0 : Int) : Bool :=
  match findVariant st vid with
  | some v => chainFromB q0 (logsFor st vid) v.quantity
  | none => true

/-- Number of completed (non-throwing) operations of a run that address
variant `vid`. -/
def completedFor (st : InvState) (vid : String) : List InvOp → Nat
  | [] => 0
  | op :: rest =>
      match applyInvOp st op with
      | .ok st' => (if op.variantId == vid then 1 else 0) + completedFor st' vid rest
      | .error _ => completedFor st vid rest

/-! ### Catalog store (`src/server/controllers/admin.product.controller.js`) -/

/-- A `category` row (`id` is the primary key). -/
structure CategoryRow where
  id : String
  parentId : Option String
  image : Option String
deriving Repr, DecidableEq

/-- A `product` row; of its columns only the ones the claims touch are kept. -/
structure ProductRow where
  id : String
  name : String
  slug : String
  isActive : Bool
deriving Repr, DecidableEq

/-- A `productCategory` association row. -/
structure PCRow where
  productId : String
  categoryId : String
  isPrimary : Bool
deriving Repr, DecidableEq

/-- A `productImage` row. -/
structure ImageRow where
  id : String
  productId : String
  url : String
  isPrimary : Bool
deriving Repr, DecidableEq

/-- An `orderItem` row, as far as the delete policy consults it. -/
structure OrderItemRow where
  id : String
  productId : String
  variantId : String
deriving Repr, DecidableEq

/-- The catalog slice of the store, plus the blob store (`blobs` holds the
locators of currently stored objects). -/
structure Shop where
  products : List ProductRow
  categories : List CategoryRow
  productCategories : List PCRow
  variants : List VariantRow
  images : List ImageRow
  orderItems : List OrderItemRow
  invLogs : List InventoryLogRow
  blobs : List String
deriving Repr, DecidableEq

/-- The order items referencing a product (`product.orderItems` in the
`deleteProduct` include). -/
def productOrderItems (st : Shop) (pid : String) : List OrderItemRow :=
  st.orderItems.filter (fun oi => oi.productId == pid)

/-- Outcome of `deleteProduct`. -/
inductive DeleteOutcome where
  | notFound
  | deactivated (message : String)
  | deleted (message : String)
deriving Repr, DecidableEq

/-- `deleteProduct` (admin.product.controller.js, lines 1235-1289):  a missing
product is a 404; a product with at least one order item is only marked
inactive, with a distinct success message; otherwise every product image is
deleted from the blob store and the row is removed inside one transaction,
cascading to the owned child rows (images, variants, category associations and
the inventory logs of the removed variants). -/
def deleteProduct (st : Shop) (pid : String) : Shop × DeleteOutcome :=
  match st.products.find? (fun p => p.id == pid) with
  | none => (st, .notFound)
  | some _ =>
      if productOrderItems st pid ≠ [] then
        ({ st with products := st.products.map (fun p =>
              if p.id == pid then { p with isActive := false } else p) },
         .deactivated "Product has associated orders and has been marked as inactive")
      else
        let imgUrls := (st.images.filter (fun i => i.productId == pid)).map (fun i => i.url)
        let deadVariants := (st.variants.filter (fun v => v.productId == pid)).map (fun v => v.id)
        ({ st with
           products := st.products.filter (fun p => !(p.id == pid)),
           images := st.images.filter (fun i => !(i.productId == pid)),
           variants := st.variants.filter (fun v => !(v.productId == pid)),
           productCategories := st.productCategories.filter (fun pc => !(pc.productId == pid)),
           invLogs := st.invLogs.filter (fun e => !(deadVariants.contains e.variantId)),
           blobs := st.blobs.filter (fun b => !(imgUrls.contains b)) },
         .deleted "Product deleted successfully")

/-- `deleteProductImage` (admin.product.controller.js, lines 1357-1417): look
the image up, refuse to delete the only image of its product, else delete the
blob and the row; when the deleted image was primary, the first remaining
image of the product (in table order) is promoted to primary. -/
def deleteProductImage (st : Shop) (imageId : String) : Shop × Option ApiError :=
  match st.images.find? (fun i => i.id == imageId) with
  | none => (st, some ⟨404, "Image not found"⟩)
  | some image =>
      let productImages := st.images.filter (fun i => i.productId == image.productId)
      if productImages.length == 1 then
        (st, some ⟨400, "Cannot delete the only image for this product"⟩)
      else
        let st1 := { st with
                     blobs := st.blobs.filter (fun b => !(b == image.url)),
                     images := st.images.filter (fun i => !(i.id == imageId)) }
        if image.isPrimary then
          match (productImages.filter (fun i => !(i.id == imageId))).head? with
          | some first =>
              ({ st1 with images := st1.images.map (fun i =>
                    if i.id == first.id then { i with isPrimary := true } else i) }, none)
          | none => (st1, none)
        else
          (st1, none)

/-! ### `updateProduct` (admin.product.controller.js, lines 642-1232)

The embedding covers requests that carry a name, a parsed category id list and
a primary category id, and no variant payload, no `hasVariants` switch and no
image files — for such a request the transaction body performs exactly the
basic-field `product.update` and nothing else.  `updateProduct` is
parameterised by `slugFn`, standing for `createSlug` from
`src/server/helper/Slug.js`, whose definition is not needed by any claim.

The category rewiring of lines 693-727 executes BEFORE
`prisma.$transaction` is opened at line 765 (although the comment at line 692
reads "In the transaction, update categories if provided"), so its writes stay
committed when a later step throws; the embedding therefore returns the state
reached at the throw point together with the error. -/

/-- A (restricted) `updateProduct` request body. -/
structure UpdateProductReq where
  productId : String
  name : Option String
  categoryIds : Option (List String)
  primaryCategoryId : Option String
deriving Repr, DecidableEq

/-- JavaScript truthiness of the `primaryCategoryId` field. -/
def primaryGiven (req : UpdateProductReq) : Bool :=
  match req.primaryCategoryId with
  | some s => !(s == "")
  | none => false

/-- The category rewiring block of `updateProduct` (lines 693-727): with a
non-empty category list the existing associations of the product are deleted
and replaced; with only a primary id every association of the product is first
cleared and the selected one set primary. -/
def rewireCategories (st : Shop) (req : UpdateProductReq) : Shop :=
  let parsed := req.categoryIds.getD []
  if parsed.length > 0 || primaryGiven req then
    if parsed.length > 0 then
      let primary := if primaryGiven req then req.primaryCategoryId.getD "" else parsed.headD ""
      { st with productCategories :=
          st.productCategories.filter (fun pc => !(pc.productId == req.productId)) ++
            parsed.map (fun cid =>
              { productId := req.productId, categoryId := cid, isPrimary := cid == primary }) }
    else
      { st with productCategories :=
          st.productCategories.map (fun pc =>
            if pc.productId == req.productId then
              if pc.categoryId == req.primaryCategoryId.getD "" then
                { pc with isPrimary := true }
              else
                { pc with isPrimary := false }
            else pc) }
  else st

/-- The slug conflict probe of lines 735-740: another product already carries
the candidate slug. -/
def slugConflict (st : Shop) (pid slug : String) : Bool :=
  st.products.any (fun p => p.slug == slug && !(p.id == pid))

/-- `updateProduct` under the request scope described above.  Returns the
state whose writes are committed when the call finishes, together with the
error if one was thrown. -/
def updateProduct (slugFn : String → String) (st : Shop) (req : UpdateProductReq) :
    Shop × Option ApiError :=
  match st.products.find? (fun p => p.id == req.productId) with
  | none => (st, some ⟨404, "Product not found"⟩)
  | some product =>
      let parsed := req.categoryIds.getD []
      let st1 := rewireCategories st req
      let nameChanging : Bool :=
        match req.name with
        | some n => !(n == "") && !(n == product.name)
        | none => false
      let slug := if nameChanging then slugFn (req.name.getD "") else product.slug
      if nameChanging && slugConflict st1 req.productId slug then
        (st1, some ⟨409, "Product with similar name already exists"⟩)
      else
        let catsToCheck :=
          if parsed.length > 0 then parsed
          else if primaryGiven req then [req.primaryCategoryId.getD ""] else []
        match catsToCheck.find? (fun cid => !(st1.categories.any (fun c => c.id == cid))) with
        | some cid => (st1, some ⟨404, "Category with ID " ++ cid ++ " not found"⟩)
        | none =>
            let nameGiven : Bool := match req.name with | some n => !(n == "") | none => false
            ({ st1 with products := st1.products.map (fun p =>
                  if p.id == req.productId then
                    { p with name := if nameGiven then req.name.getD p.name else p.name,
                             slug := if nameGiven then slug else p.slug }
                  else p) },
             none)

/-! ### `createProduct` name validation (admin.product.controller.js, lines 232-247) -/

/-- The embedded error payload the name check scans for. -/
def errorPayloadMarker : String := "\x7b\"success\":false,\"message\""

/-- The name validation and cleaning step of `createProduct`: a missing name,
a whitespace-only name, or a name containing the error payload marker throws a
400; otherwise `cleanName` is computed — its payload-substitution branch is
kept verbatim from the source although the preceding guard makes it
unreachable. -/
def createProductNameCheck (name : Option String) : Except ApiError String :=
  match name with
  | none => .error ⟨400, "Valid product name is required. Please provide a proper name without error messages."⟩
  | some n =>
      if n == "" || jsTrim n == "" || containsSub n errorPayloadMarker then
        .error ⟨400, "Valid product name is required. Please provide a proper name without error messages."⟩
      else
        .ok (if containsSub n errorPayloadMarker then "New Product" else jsTrim n)

/-! ### SKU resolution (admin.product.controller.js)

`generateSKU` (from `src/server/utils/generateSKU.js`, not needed by any
claim) draws on the clock and on `Math.random`, so the two potential
generation results appear as parameters `gen1` (the no-SKU generation) and
`gen2` (the collision regeneration). -/

/-- Per-variant SKU resolution inside `createProduct` (lines 438-462): an
absent, blank or placeholder (`-VAN-50g` / `-CHO-250g`) supplied SKU triggers
generation; afterwards a SKU that already exists in the variant table is
replaced by a fresh generated one. -/
def resolveSkuCreateProduct (dbSkus : List String) (supplied : Option String)
    (gen1 gen2 : String) : String :=
  let sku0 :=
    match supplied with
    | none => gen1
    | some s =>
        if s == "" || jsTrim s == "" || s == "-VAN-50g" || s == "-CHO-250g" then gen1 else s
  if dbSkus.contains sku0 then gen2 else sku0

/-- SKU resolution inside `createProductVariant` (lines 1481-1500): only an
absent or blank supplied SKU triggers generation (no placeholder list here);
afterwards a SKU that already exists is replaced by a fresh generated one. -/
def resolveSkuCreateVariant (dbSkus : List String) (supplied : Option String)
    (gen1 gen2 : String) : String :=
  let sku0 :=
    match supplied with
    | none => gen1
    | some s => if s == "" || jsTrim s == "" then gen1 else s
  if dbSkus.contains sku0 then gen2 else sku0

/-! ### Variant generation (`src/front/src/pages/SettingsPage.tsx`, lines 634-731) -/

/-- The fields of a variant form entry that determine its (flavor, weight)
combination; the generated client-local id, sku and price fields do not affect
the claims about combinations. -/
structure VForm where
  flavorId : Option String
  weightId : Option String
deriving Repr, DecidableEq

/-- The `variants.some(...)` existence probe of line 708. -/
def variantExists (variants : List VForm) (f w : String) : Bool :=
  variants.any (fun v => v.flavorId == some f && v.weightId == some w)

/-- `generateVariants`: with both axes empty nothing happens (a toast error);
with only weights selected one weight-only variant per selected weight is
appended; with only flavors selected one flavor-only variant per selected
flavor is appended; with both axes selected the flavor × weight combinations
are appended, skipping combinations already present in the current list.  Only
the Cartesian branch performs the existence check. -/
def generateVariants (variants : List VForm) (selF selW : List String) : List VForm :=
  if selF.isEmpty && selW.isEmpty then
    variants
  else if selF.isEmpty then
    variants ++ selW.map (fun w => { flavorId := none, weightId := some w })
  else if selW.isEmpty then
    variants ++ selF.map (fun f => { flavorId := some f, weightId := none })
  else
    variants ++ selF.flatMap (fun f =>
      selW.filterMap (fun w =>
        if variantExists variants f w then none
        else some { flavorId := some f, weightId := some w }))

/-- The (flavor, weight) combination of each entry of a variant list. -/
def combos (l : List VForm) : List (Option String × Option String) :=
  l.map (fun v => (v.flavorId, v.weightId))

/-- The number of selected (flavor, weight) pairs already present in the
current variant list. -/
def presentCount (variants : List VForm) (selF selW : List String) : Nat :=
  (selF.flatMap (fun f => selW.filter (fun w => variantExists variants f w))).length

/-! ### Category deletion route (`src/unnamed/part_003`, lines 354-416) -/

/-- A product row of the storefront schema used by the categories router,
which relates products to a category through a direct `categoryId` column. -/
structure RouteProductRow where
  id : String
  categoryId : String
deriving Repr, DecidableEq

/-- The store slice the categories router touches. -/
structure CategoriesRouteState where
  categories : List CategoryRow
  products : List RouteProductRow
  blobs : List String
deriving Repr, DecidableEq

/-- Result of the category delete route. -/
inductive CatDelResult where
  | ok (message : String)
  | err (status : Nat) (message : String)
deriving Repr, DecidableEq

/-- The child categories of a category. -/
def childrenOf (st : CategoriesRouteState) (cid : String) : List CategoryRow :=
  st.categories.filter (fun c => c.parentId == some cid)

/-- `router.delete("/categories/:id")`: a missing category is a 404; a
category with children is refused with a 400; a category with associated
products is refused with a 400; otherwise its image blob (if any) is deleted
and the row removed. -/
def deleteCategory (st : CategoriesRouteState) (cid : String) :
    CategoriesRouteState × CatDelResult :=
  match st.categories.find? (fun c => c.id == cid) with
  | none => (st, .err 404 "Category not found")
  | some category =>
      if (childrenOf st cid).length > 0 then
        (st, .err 400 "Cannot delete category with subcategories. Please delete subcategories first.")
      else
        let productsCount := (st.products.filter (fun p => p.categoryId == cid)).length
        if productsCount > 0 then
          (st, .err 400 ("Cannot delete category. It has " ++ toString productsCount ++
            " products associated with it."))
        else
          let st1 :=
            match category.image with
            | some img => { st with blobs := st.blobs.filter (fun b => !(b == img)) }
            | none => st
          ({ st1 with categories := st1.categories.filter (fun c => !(c.id == cid)) },
           .ok "Category deleted successfully")

/-! ### Concrete states used by counterexamples and witnesses -/

/-- A one-variant store with quantity 5 and an empty ledger. -/
def c1State : InvState :=
  { variants := [{ id := "v1", productId := "p1", sku := "SKU1", flavorId := none,
                   weightId := none, quantity := 5, isActive := true }],
    logs := [] }

/-- An incoming `updateProduct` variant payload that changes the quantity to 7. -/
def c1Payload : ProductUpdateVariantPayload :=
  { sku := "SKU1", flavorId := none, weightId := none, quantity := 7, isActive := true }

/-- Claim C1: the ledger balance invariant is claimed to hold across all
quantity-changing operations including the variant updates performed through
`updateProduct`.  Counterexample: starting from quantity 5 with an empty
ledger, one completed `updateProduct` variant update sets the quantity to 7
while writing no log entry, so the persisted quantity 7 differs from the
initial quantity 5 plus the (empty) sum of logged deltas, and 1 completed
quantity-changing operation left 0 log entries. -/
theorem claim_C1_counterexample :
    (applyInvOp c1State (.productUpdateVariant "v1" c1Payload)).isOk = true ∧
    (findVariant (runOps c1State [.productUpdateVariant "v1" c1Payload]) "v1").map
        (fun v => v.quantity) = some 7 ∧
    logsFor (runOps c1State [.productUpdateVariant "v1" c1Payload]) "v1" = [] ∧
    ¬ (7 : Int) = 5 +
        ((logsFor (runOps c1State [.productUpdateVariant "v1" c1Payload]) "v1").map
          (fun e => e.quantityChange)).sum := by
  decide

/-- A name that is non-empty but embeds the error payload marker. -/
def c3BadName : String := "Whey Protein" ++ errorPayloadMarker

/-- Claim C3: a non-empty name containing the embedded error payload is
claimed to be accepted with a placeholder substituted.  Counterexample: such a
name is rejected with a 400 validation error by `createProduct`, so the
operation does fail and no placeholder is substituted. -/
theorem claim_C3_counterexample :
    c3BadName ≠ "" ∧ containsSub c3BadName errorPayloadMarker = true ∧
    createProductNameCheck (some c3BadName) =
      .error ⟨400, "Valid product name is required. Please provide a proper name without error messages."⟩ := by
  decide

/-- Claim C5: the single-axis generation modes are claimed to never produce a
duplicate combination.  Counterexample: with a weight-only variant for `w1`
already present, weights-only generation for `w1` appends a second variant
with the same (null flavor, `w1`) combination. -/
theorem claim_C5_counterexample :
    generateVariants [{ flavorId := none, weightId := some "w1" }] [] ["w1"]
      = [{ flavorId := none, weightId := some "w1" },
         { flavorId := none, weightId := some "w1" }] ∧
    ¬ (combos (generateVariants [{ flavorId := none, weightId := some "w1" }] [] ["w1"])).Nodup := by
  decide

/-- Claim C6: a caller-supplied non-empty, non-placeholder SKU is claimed to
never be silently replaced by a generated one.  Counterexample: in
`createProduct`, a supplied SKU equal to an already persisted SKU is silently
replaced by the regenerated SKU. -/
theorem claim_C6_counterexample :
    resolveSkuCreateProduct ["CUSTOM-1"] (some "CUSTOM-1") "GEN-A" "GEN-B" = "GEN-B" ∧
    "GEN-B" ≠ "CUSTOM-1" ∧ jsTrim "CUSTOM-1" ≠ "" ∧
    "CUSTOM-1" ≠ "-VAN-50g" ∧ "CUSTOM-1" ≠ "-CHO-250g" := by
  decide

/-- A catalog with two products (the second already owning the slug the rename
will produce) and one category association for the first product. -/
def c2Shop : Shop :=
  { products := [{ id := "p1", name := "Alpha", slug := "alpha", isActive := true },
                 { id := "p2", name := "Beta", slug := "Beta", isActive := true }],
    categories := [{ id := "c1", parentId := none, image := none },
                   { id := "c2", parentId := none, image := none }],
    productCategories := [{ productId := "p1", categoryId := "c1", isPrimary := true }],
    variants := [], images := [], orderItems := [], invLogs := [], blobs := [] }

/-- An update request that both rewires the categories of `p1` and renames it
onto a conflicting slug. -/
def c2Req : UpdateProductReq :=
  { productId := "p1", name := some "Beta", categoryIds := some ["c2"],
    primaryCategoryId := none }

/-- Claim C2: evaluation of `updateProduct` at the failing input.  The slug
conflict throws a 409, yet the returned (committed) state carries the rewired
category associations: the pre-update association to `c1` is gone and the new
association to `c2` persists, because the rewiring of lines 693-727 runs
before the transaction of line 765 opens. -/
theorem claim_C2_code_bug_eval :
    (updateProduct (fun s => s) c2Shop c2Req).2 =
      some ⟨409, "Product with similar name already exists"⟩ ∧
    (updateProduct (fun s => s) c2Shop c2Req).1.productCategories =
      [{ productId := "p1", categoryId := "c2", isPrimary := true }] ∧
    (updateProduct (fun s => s) c2Shop c2Req).1.productCategories ≠
      c2Shop.productCategories := by
  decide

/-- A category with no children but one associated product. -/
def c8State : CategoriesRouteState :=
  { categories := [{ id := "c1", parentId := none, image := none }],
    products := [{ id := "pr1", categoryId := "c1" }],
    blobs := [] }

/-- Claim C8: a category with zero children is claimed to always be deletable.
Counterexample: a childless category with one associated product is refused
with a 400 and the store is left unchanged. -/
theorem claim_C8_counterexample :
    childrenOf c8State "c1" = [] ∧
    (deleteCategory c8State "c1").2 =
      .err 400 "Cannot delete category. It has 1 products associated with it." ∧
    (deleteCategory c8State "c1").1 = c8State := by
  decide

/-! ### Ledger lemmas -/

/-- Appending a log entry whose previous quantity is the current end of the
chain and whose new quantity adds its delta extends the chain. -/
theorem chainFromB_snoc (logs : List InventoryLogRow) (q0 q : Int) (e : InventoryLogRow)
    (h : chainFromB q0 logs q = true)
    (h1 : e.previousQuantity = q) (h2 : e.newQuantity = q + e.quantityChange) :
    chainFromB q0 (logs ++ [e]) e.newQuantity = true := by
  induction logs generalizing q0 with
  | nil =>
      simp [chainFromB] at h
      simp [chainFromB, h, h1, h2]
  | cons hd tl ih =>
      simp only [chainFromB, List.cons_append, Bool.and_eq_true, beq_iff_eq] at h ⊢
      exact ⟨⟨h.1.1, h.1.2⟩, ih _ h.2⟩

/-- A chained ledger ends at the initial quantity plus the sum of its deltas. -/
theorem chainFromB_sum (logs : List InventoryLogRow) (q0 q : Int)
    (h : chainFromB q0 logs q = true) :
    q = q0 + (logs.map (fun e => e.quantityChange)).sum := by
  induction logs generalizing q0 with
  | nil =>
      simp [chainFromB] at h
      simp [h]
  | cons hd tl ih =>
      simp only [chainFromB, Bool.and_eq_true, beq_iff_eq] at h
      obtain ⟨⟨h1, h2⟩, h3⟩ := h
      have htl := ih _ h3
      simp only [List.map_cons, List.sum_cons]
      omega

/-- Updating the quantity of the rows with id `vid` commutes with looking the
variant up: the found row is the old one with the updated quantity. -/
theorem findVariant_updateVariantQty (vs : List VariantRow) (vid : String) (f : Int → Int) :
    (updateVariantQty vs vid f).find? (fun v => v.id == vid)
      = (vs.find? (fun v => v.id == vid)).map (fun v => { v with quantity := f v.quantity }) := by
  have hpred : ((fun v : VariantRow => v.id == vid) ∘
      (fun v => if v.id == vid then { v with quantity := f v.quantity } else v))
      = fun v : VariantRow => v.id == vid := by
    funext v
    by_cases h : v.id = vid <;> simp [h]
  rw [updateVariantQty, List.find?_map, hpred]
  cases hf : vs.find? (fun v => v.id == vid) with
  | none => rfl
  | some v =>
      have hp := List.find?_some hf
      have hv : v.id = vid := by simpa using hp
      simp [Option.map_some', hv]

/-- Updating the quantity of the rows of a different id leaves a lookup
unchanged. -/
theorem findVariant_updateVariantQty_ne (vs : List VariantRow) (vid vid' : String)
    (f : Int → Int) (hne : vid ≠ vid') :
    (updateVariantQty vs vid' f).find? (fun v => v.id == vid)
      = vs.find? (fun v => v.id == vid) := by
  have hpred : ((fun v : VariantRow => v.id == vid) ∘
      (fun v => if v.id == vid' then { v with quantity := f v.quantity } else v))
      = fun v : VariantRow => v.id == vid := by
    funext v
    by_cases h : v.id = vid' <;> simp [h]
  rw [updateVariantQty, List.find?_map, hpred]
  cases hf : vs.find? (fun v => v.id == vid) with
  | none => rfl
  | some v =>
      have hp := List.find?_some hf
      have hv : v.id = vid := by simpa using hp
      have hne2 : ¬ v.id = vid' := by
        rw [hv]
        exact hne
      simp [Option.map_some', hne2]

/-- The per-variant log view after appending one entry. -/
theorem logsFor_snoc (vs : List VariantRow) (logs : List InventoryLogRow)
    (e : InventoryLogRow) (vid : String) :
    logsFor ⟨vs, logs ++ [e]⟩ vid
      = logsFor ⟨vs, logs⟩ vid ++ (if e.variantId == vid then [e] else []) := by
  simp only [logsFor, List.filter_append]
  congr 1
  cases hb : (e.variantId == vid) <;> simp [List.filter, hb]

/-- Appending one log row to the log, viewed through the per-variant filter. -/
theorem filter_snoc_log (logs : List InventoryLogRow) (e : InventoryLogRow) (vid : String) :
    (logs ++ [e]).filter (fun x => x.variantId == vid)
      = logs.filter (fun x => x.variantId == vid) ++
          (if e.variantId == vid then [e] else []) := by
  rw [List.filter_append]
  congr 1
  cases hb : (e.variantId == vid) <;> simp [List.filter, hb]

/-- Committing a quantity update of variant `vid'` together with one matching
log entry preserves the ledger chain of every variant `vid` and grows the log
view of `vid` by one exactly when `vid' = vid`. -/
theorem ledgerChainB_commit (st : InvState) (vid' vid : String) (q0 : Int)
    (f : Int → Int) (e : InventoryLogRow) (v : VariantRow)
    (hfv : findVariant st vid' = some v)
    (hev : e.variantId = vid')
    (hprev : e.previousQuantity = v.quantity)
    (hnew : e.newQuantity = f v.quantity)
    (hdelta : f v.quantity = v.quantity + e.quantityChange)
    (hinv : ledgerChainB st vid q0 = true) :
    ledgerChainB ⟨updateVariantQty st.variants vid' f, st.logs ++ [e]⟩ vid q0 = true ∧
    (logsFor ⟨updateVariantQty st.variants vid' f, st.logs ++ [e]⟩ vid).length
      = (logsFor st vid).length + (if vid' == vid then 1 else 0) := by
  have hlogs : logsFor ⟨updateVariantQty st.variants vid' f, st.logs ++ [e]⟩ vid
      = logsFor st vid ++ (if vid' == vid then [e] else []) := by
    show (st.logs ++ [e]).filter (fun x => x.variantId == vid) = _
    rw [filter_snoc_log, hev]
    rfl
  constructor
  · by_cases hvv : vid' = vid
    · subst hvv
      have hchain : chainFromB q0 (logsFor st vid') v.quantity = true := by
        unfold ledgerChainB at hinv
        rw [hfv] at hinv
        exact hinv
      have hfind : findVariant ⟨updateVariantQty st.variants vid' f, st.logs ++ [e]⟩ vid'
          = some { v with quantity := f v.quantity } := by
        show (updateVariantQty st.variants vid' f).find? (fun x => x.id == vid') = _
        rw [findVariant_updateVariantQty]
        unfold findVariant at hfv
        rw [hfv]
        rfl
      unfold ledgerChainB
      rw [hfind]
      show chainFromB q0
        (logsFor ⟨updateVariantQty st.variants vid' f, st.logs ++ [e]⟩ vid') (f v.quantity) = true
      rw [hlogs, if_pos (by simp), ← hnew]
      exact chainFromB_snoc _ _ _ _ hchain hprev (by rw [hnew, hdelta])
    · have hfind : findVariant ⟨updateVariantQty st.variants vid' f, st.logs ++ [e]⟩ vid
          = findVariant st vid := by
        show (updateVariantQty st.variants vid' f).find? (fun x => x.id == vid) = _
        rw [findVariant_updateVariantQty_ne _ _ _ _ (fun hx => hvv hx.symm)]
        rfl
      have hlogs2 : logsFor ⟨updateVariantQty st.variants vid' f, st.logs ++ [e]⟩ vid
          = logsFor st vid := by
        rw [hlogs, if_neg (by simp [hvv])]
        simp
      unfold ledgerChainB at hinv ⊢
      rw [hfind, hlogs2]
      exact hinv
  · rw [hlogs, List.length_append]
    by_cases hvv : vid' = vid <;> simp [hvv]

/-- One completed ledger operation preserves the ledger chain of every variant
and appends exactly one log entry for the variant it addresses, none for any
other variant. -/
theorem ledger_apply_ok (st st' : InvState) (op : InvOp) (vid : String) (q0 : Int)
    (hop : op.isLedger = true) (hinv : ledgerChainB st vid q0 = true)
    (hap : applyInvOp st op = .ok st') :
    ledgerChainB st' vid q0 = true ∧
    (logsFor st' vid).length =
      (logsFor st vid).length + (if op.variantId == vid then 1 else 0) := by
  cases op with
  | productUpdateVariant vid' payload => simp [InvOp.isLedger] at hop
  | add userId vid' q notes =>
      by_cases h1 : vid' = ""
      · simp [applyInvOp, addInventory, h1] at hap
      · by_cases h2 : q ≤ 0
        · simp [applyInvOp, addInventory, h1, h2] at hap
        · cases hfv : findVariant st vid' with
          | none => simp [applyInvOp, addInventory, h1, h2, hfv] at hap
          | some v =>
              simp [applyInvOp, addInventory, h1, h2, hfv] at hap
              subst hap
              exact ledgerChainB_commit st vid' vid q0 (· + q) _ v hfv rfl rfl rfl rfl hinv
  | remove userId vid' q reason notes =>
      by_cases h1 : vid' = ""
      · simp [applyInvOp, removeInventory, h1] at hap
      · by_cases h2 : q ≤ 0
        · simp [applyInvOp, removeInventory, h1, h2] at hap
        · cases hfv : findVariant st vid' with
          | none => simp [applyInvOp, removeInventory, h1, h2, hfv] at hap
          | some v =>
              by_cases h3 : v.quantity < q
              · simp [applyInvOp, removeInventory, h1, h2, hfv, h3] at hap
              · simp [applyInvOp, removeInventory, h1, h2, hfv, h3] at hap
                subst hap
                exact ledgerChainB_commit st vid' vid q0 (· - q) _ v hfv rfl rfl rfl
                  (by simp only [Int.sub_eq_add_neg]) hinv

/-- Running a sequence of ledger operations preserves the ledger chain of any
variant and grows its log by exactly the number of completed operations
addressing it. -/
theorem ledger_run (ops : List InvOp) (st : InvState) (vid : String) (q0 : Int)
    (hops : ops.all InvOp.isLedger = true) (hinv : ledgerChainB st vid q0 = true) :
    ledgerChainB (runOps st ops) vid q0 = true ∧
    (logsFor (runOps st ops) vid).length
      = (logsFor st vid).length + completedFor st vid ops := by
  induction ops generalizing st with
  | nil => simp [runOps, completedFor, hinv]
  | cons op rest ih =>
      simp only [List.all_cons, Bool.and_eq_true] at hops
      cases hap : applyInvOp st op with
      | error e =>
          have hr : runOps st (op :: rest) = runOps st rest := by
            simp [runOps, hap]
          have hc : completedFor st vid (op :: rest) = completedFor st vid rest := by
            simp [completedFor, hap]
          rw [hr, hc]
          exact ih st hops.2 hinv
      | ok st1 =>
          have hstep := ledger_apply_ok st st1 op vid q0 hops.1 hinv hap
          have hr : runOps st (op :: rest) = runOps st1 rest := by
            simp [runOps, hap]
          have hc : completedFor st vid (op :: rest)
              = (if op.variantId == vid then 1 else 0) + completedFor st1 vid rest := by
            simp [completedFor, hap]
          rw [hr, hc]
          obtain ⟨ha, hb⟩ := ih st1 hops.2 hstep.1
          refine ⟨ha, ?_⟩
          rw [hb, hstep.2]
          omega

/-- Claim C1 (amended): for sequences built from the two ledger operations
`addInventory` and `removeInventory` the balance invariant holds: if a variant
satisfies the ledger chain starting at `q0`, then after any run it still does,
its persisted quantity equals `q0` plus the sum of its logged deltas, and the
number of its log entries has grown by exactly the number of completed
operations addressing it, each entry recording the running previous/new
quantities.  The claim as frozen fails for the variant updates performed
through `updateProduct`, which change the quantity without writing any log
entry (see the counterexample). -/
theorem claim_C1_amended (ops : List InvOp) (st : InvState) (vid : String) (q0 : Int)
    (hops : ops.all InvOp.isLedger = true) (hinv : ledgerChainB st vid q0 = true) :
    ledgerChainB (runOps st ops) vid q0 = true ∧
    (logsFor (runOps st ops) vid).length
      = (logsFor st vid).length + completedFor st vid ops ∧
    ((findVariant (runOps st ops) vid).all (fun v =>
        v.quantity == q0 +
          ((logsFor (runOps st ops) vid).map (fun e => e.quantityChange)).sum)) = true := by
  obtain ⟨h1, h2⟩ := ledger_run ops st vid q0 hops hinv
  refine ⟨h1, h2, ?_⟩
  unfold ledgerChainB at h1
  cases hf : findVariant (runOps st ops) vid with
  | none => simp [Option.all]
  | some v =>
      rw [hf] at h1
      have hs := chainFromB_sum _ _ _ h1
      simp [Option.all, hs]

/-- The restock / consume / over-consume scenario of the specification. -/
def c1DemoOps : List InvOp :=
  [.add "admin" "v1" 50 none, .remove "admin" "v1" 20 "sale" none,
   .remove "admin" "v1" 40 "sale" none]

/-- Witness for claim C1 (amended): starting at quantity 5 with an empty
ledger, restocking 50, consuming 20 and failing to consume 40 leaves the chain
intact with exactly the two completed entries. -/
theorem claim_C1_amended_witness :
    ledgerChainB (runOps c1State c1DemoOps) "v1" 5 = true ∧
    (logsFor (runOps c1State c1DemoOps) "v1").length
      = (logsFor c1State "v1").length + completedFor c1State "v1" c1DemoOps ∧
    ((findVariant (runOps c1State c1DemoOps) "v1").all (fun v =>
        v.quantity == 5 +
          ((logsFor (runOps c1State c1DemoOps) "v1").map
            (fun e => e.quantityChange)).sum)) = true :=
  claim_C1_amended c1DemoOps c1State "v1" 5 (by decide) (by decide)

/-- Claim C4: a removal whose magnitude exceeds the current quantity fails
with a 400 validation error and leaves the store (quantity and log) unchanged;
a removal with positive magnitude at most the current quantity succeeds,
decrements the quantity by exactly that amount (never below zero) and appends
exactly one log entry. -/
theorem claim_C4 (st : InvState) (userId vid reason : String) (notes : Option String)
    (q : Int) (v : VariantRow)
    (hv : findVariant st vid = some v) (hvid : vid ≠ "") :
    (v.quantity < q →
       (∃ msg, removeInventory st userId vid q reason notes = .error ⟨400, msg⟩) ∧
       runOps st [.remove userId vid q reason notes] = st) ∧
    (0 < q → q ≤ v.quantity →
       ∃ st', removeInventory st userId vid q reason notes = .ok st' ∧
         findVariant st' vid = some { v with quantity := v.quantity - q } ∧
         st'.logs = st.logs ++
           [{ variantId := vid, quantityChange := -q, reason := reason,
              previousQuantity := v.quantity, newQuantity := v.quantity - q,
              createdBy := userId, notes := notes }] ∧
         0 ≤ v.quantity - q) := by
  constructor
  · intro hlt
    by_cases hq : q ≤ 0
    · exact ⟨⟨"Valid variant ID and quantity are required", by simp [removeInventory, hq]⟩,
        by simp [runOps, applyInvOp, removeInventory, hq]⟩
    · exact ⟨⟨"Not enough inventory to remove",
          by simp [removeInventory, hvid, hq, hv, hlt]⟩,
        by simp [runOps, applyInvOp, removeInventory, hvid, hq, hv, hlt]⟩
  · intro hq0 hle
    have hq : ¬ q ≤ 0 := by omega
    have hlt : ¬ v.quantity < q := by omega
    refine ⟨{ variants := updateVariantQty st.variants vid (· - q),
              logs := st.logs ++
                [{ variantId := vid, quantityChange := -q, reason := reason,
                   previousQuantity := v.quantity, newQuantity := v.quantity - q,
                   createdBy := userId, notes := notes }] }, ?_, ?_, rfl, by omega⟩
    · simp [removeInventory, hvid, hv, hq, hlt]
    · show (updateVariantQty st.variants vid (· - q)).find? (fun x => x.id == vid) = _
      rw [findVariant_updateVariantQty]
      unfold findVariant at hv
      rw [hv]
      rfl

/-- The single variant row of the claim C4 witness store. -/
def c4Variant : VariantRow :=
  { id := "v1", productId := "p1", sku := "SKU1", flavorId := none,
    weightId := none, quantity := 30, isActive := true }

/-- A one-variant store exercising both branches of claim C4. -/
def c4State : InvState :=
  { variants := [c4Variant], logs := [] }

/-- The log entry a successful removal of 40 would append in the C4 witness. -/
def c4Entry : InventoryLogRow :=
  { variantId := "v1", quantityChange := -40, reason := "sale",
    previousQuantity := 30, newQuantity := 30 - 40,
    createdBy := "admin", notes := none }

/-- Witness for claim C4 at a removal of 40 against quantity 30: the excess
branch applies (and the vacuous success branch has an unsatisfied bound). -/
theorem claim_C4_witness :
    (c4Variant.quantity < 40 →
       (∃ msg, removeInventory c4State "admin" "v1" 40 "sale" none = .error ⟨400, msg⟩) ∧
       runOps c4State [.remove "admin" "v1" 40 "sale" none] = c4State) ∧
    ((0 : Int) < 40 → (40 : Int) ≤ c4Variant.quantity →
       ∃ st', removeInventory c4State "admin" "v1" 40 "sale" none = .ok st' ∧
         findVariant st' "v1" = some { c4Variant with quantity := c4Variant.quantity - 40 } ∧
         st'.logs = c4State.logs ++ [c4Entry] ∧
         (0 : Int) ≤ c4Variant.quantity - 40) :=
  claim_C4 c4State "admin" "v1" "sale" none 40 c4Variant (by decide) (by decide)

/-- Claim C3 (amended): a `createProduct` input whose name contains the
embedded error payload is rejected with a 400 validation error — the
operation fails rather than substituting the placeholder name, whose
substitution branch is unreachable behind the guard. -/
theorem claim_C3_amended (n : String) (h : containsSub n errorPayloadMarker = true) :
    createProductNameCheck (some n) =
      .error ⟨400, "Valid product name is required. Please provide a proper name without error messages."⟩ := by
  simp [createProductNameCheck, h]

/-- Witness for claim C3 (amended) at a concrete payload-carrying name. -/
theorem claim_C3_amended_witness :
    createProductNameCheck (some c3BadName) =
      .error ⟨400, "Valid product name is required. Please provide a proper name without error messages."⟩ :=
  claim_C3_amended c3BadName (by decide)

/-- Claim C6 (amended): in both `createProduct` and `createProductVariant` a
caller-supplied SKU that is non-blank, not one of the two placeholder literals
(only `createProduct` checks them; `createProductVariant` checks blankness
alone) and not equal to an already persisted SKU is honored verbatim; a
supplied SKU that collides with a persisted SKU is silently replaced by the
regenerated SKU. -/
theorem claim_C6_amended (dbSkus : List String) (s gen1 gen2 : String)
    (hns : ¬ s = "") (hblank : ¬ jsTrim s = "")
    (hp1 : ¬ s = "-VAN-50g") (hp2 : ¬ s = "-CHO-250g") :
    (s ∉ dbSkus →
        resolveSkuCreateProduct dbSkus (some s) gen1 gen2 = s ∧
        resolveSkuCreateVariant dbSkus (some s) gen1 gen2 = s) ∧
    (s ∈ dbSkus →
        resolveSkuCreateProduct dbSkus (some s) gen1 gen2 = gen2 ∧
        resolveSkuCreateVariant dbSkus (some s) gen1 gen2 = gen2) := by
  constructor <;> intro hc <;> constructor <;>
    simp [resolveSkuCreateProduct, resolveSkuCreateVariant, hns, hblank, hp1, hp2, hc]

/-- Witness for claim C6 (amended): a custom SKU not colliding with the one
persisted SKU is honored by both operations. -/
theorem claim_C6_amended_witness :
    ("CUSTOM-1" ∉ (["OTHER"] : List String) →
        resolveSkuCreateProduct ["OTHER"] (some "CUSTOM-1") "GEN-A" "GEN-B" = "CUSTOM-1" ∧
        resolveSkuCreateVariant ["OTHER"] (some "CUSTOM-1") "GEN-A" "GEN-B" = "CUSTOM-1") ∧
    ("CUSTOM-1" ∈ (["OTHER"] : List String) →
        resolveSkuCreateProduct ["OTHER"] (some "CUSTOM-1") "GEN-A" "GEN-B" = "GEN-B" ∧
        resolveSkuCreateVariant ["OTHER"] (some "CUSTOM-1") "GEN-A" "GEN-B" = "GEN-B") :=
  claim_C6_amended ["OTHER"] "CUSTOM-1" "GEN-A" "GEN-B"
    (by decide) (by decide) (by decide) (by decide)

/-- Claim C8 (amended): a category that still has children can never be
deleted — the route answers 400 and the store is unchanged; a category with
zero children and zero associated products is deleted successfully and its
row removed.  The claim as frozen fails for a childless category that still
has associated products (see the counterexample). -/
theorem claim_C8_amended (st : CategoriesRouteState) (cid : String) (c : CategoryRow)
    (hfind : st.categories.find? (fun x => x.id == cid) = some c) :
    (childrenOf st cid ≠ [] →
        deleteCategory st cid =
          (st, .err 400 "Cannot delete category with subcategories. Please delete subcategories first.")) ∧
    (childrenOf st cid = [] →
        st.products.filter (fun p => p.categoryId == cid) = [] →
        (deleteCategory st cid).2 = .ok "Category deleted successfully" ∧
        (deleteCategory st cid).1.categories.find? (fun x => x.id == cid) = none) := by
  constructor
  · intro hch
    have hl : (childrenOf st cid).length > 0 := List.length_pos.mpr hch
    simp only [deleteCategory, hfind, if_pos hl]
  · intro hch hpr
    have hl : ¬ (childrenOf st cid).length > 0 := by simp [hch]
    have hp : ¬ (st.products.filter (fun p => p.categoryId == cid)).length > 0 := by
      simp [hpr]
    simp only [deleteCategory, hfind]
    rw [if_neg hl, if_neg hp]
    have hnone : ∀ blobs,
        (({ categories := st.categories.filter (fun x => !(x.id == cid)),
            products := st.products, blobs := blobs } :
              CategoriesRouteState).categories.find? (fun x => x.id == cid)) = none := by
      intro blobs
      apply List.find?_eq_none.mpr
      intro x hx
      have hmem := List.of_mem_filter hx
      simp at hmem
      simp [hmem]
    cases hc : c.image with
    | none => exact ⟨rfl, hnone st.blobs⟩
    | some img => exact ⟨rfl, hnone (st.blobs.filter (fun b => !(b == img)))⟩

/-- A category tree with one parent and one child, for the C8 witness. -/
def c8TreeState : CategoriesRouteState :=
  { categories := [{ id := "c1", parentId := none, image := none },
                   { id := "c2", parentId := some "c1", image := none }],
    products := [], blobs := [] }

/-- Witness for claim C8 (amended): the parent category has a child, so its
deletion is refused with the store unchanged. -/
theorem claim_C8_amended_witness :
    (childrenOf c8TreeState "c1" ≠ [] →
        deleteCategory c8TreeState "c1" =
          (c8TreeState, .err 400 "Cannot delete category with subcategories. Please delete subcategories first.")) ∧
    (childrenOf c8TreeState "c1" = [] →
        c8TreeState.products.filter (fun p => p.categoryId == "c1") = [] →
        (deleteCategory c8TreeState "c1").2 = .ok "Category deleted successfully" ∧
        (deleteCategory c8TreeState "c1").1.categories.find? (fun x => x.id == "c1") = none) :=
  claim_C8_amended c8TreeState "c1" { id := "c1", parentId := none, image := none } (by decide)

/-- Marking the product row `pid` inactive commutes with looking it up. -/
theorem find?_setInactive (ps : List ProductRow) (pid : String) :
    (ps.map (fun x => if x.id == pid then { x with isActive := false } else x)).find?
        (fun x => x.id == pid)
      = (ps.find? (fun x => x.id == pid)).map (fun x => { x with isActive := false }) := by
  have hpred : ((fun x : ProductRow => x.id == pid) ∘
      (fun x => if x.id == pid then { x with isActive := false } else x))
      = fun x : ProductRow => x.id == pid := by
    funext x
    by_cases h : x.id = pid <;> simp [h]
  rw [List.find?_map, hpred]
  cases hf : ps.find? (fun x => x.id == pid) with
  | none => rfl
  | some x =>
      have hp : x.id = pid := by simpa using List.find?_some hf
      simp [hp]

/-- Claim C7: `deleteProduct` on a product with at least one historical order
item keeps the row, flips `isActive` to false and answers with the distinct
deactivation message; on a product with no order items it removes the row,
its images (each locator removed from the blob store) and its variants in
the same transaction. -/
theorem claim_C7 (st : Shop) (pid : String) (p : ProductRow)
    (hfind : st.products.find? (fun x => x.id == pid) = some p) :
    (productOrderItems st pid ≠ [] →
        (deleteProduct st pid).2 =
          .deactivated "Product has associated orders and has been marked as inactive" ∧
        (deleteProduct st pid).1.products.find? (fun x => x.id == pid) =
          some { p with isActive := false }) ∧
    (productOrderItems st pid = [] →
        (deleteProduct st pid).2 = .deleted "Product deleted successfully" ∧
        (deleteProduct st pid).1.products.find? (fun x => x.id == pid) = none ∧
        (deleteProduct st pid).1.images.filter (fun i => i.productId == pid) = [] ∧
        (deleteProduct st pid).1.variants.filter (fun v => v.productId == pid) = [] ∧
        ∀ i ∈ st.images, i.productId = pid → i.url ∉ (deleteProduct st pid).1.blobs) := by
  constructor
  · intro horder
    simp only [deleteProduct, hfind]
    rw [if_pos horder]
    exact ⟨rfl, by rw [find?_setInactive, hfind]; simp⟩
  · intro horder
    have hno : ¬ productOrderItems st pid ≠ [] := by simp [horder]
    simp only [deleteProduct, hfind]
    rw [if_neg hno]
    refine ⟨rfl, ?_, ?_, ?_, ?_⟩
    · apply List.find?_eq_none.mpr
      intro x hx
      have hmem := List.of_mem_filter hx
      simp at hmem
      simp [hmem]
    · apply List.filter_eq_nil_iff.mpr
      intro i hi
      have hmem := List.of_mem_filter hi
      simp at hmem
      simp [hmem]
    · apply List.filter_eq_nil_iff.mpr
      intro v hv
      have hmem := List.of_mem_filter hv
      simp at hmem
      simp [hmem]
    · intro i hi hipid hblob
      have hmem := List.of_mem_filter hblob
      simp only [Bool.not_eq_true'] at hmem
      have hin : (List.map (fun i => i.url)
          (List.filter (fun i => i.productId == pid) st.images)).contains i.url = true := by
        have : i.url ∈ List.map (fun i => i.url)
            (List.filter (fun i => i.productId == pid) st.images) := by
          apply List.mem_map.mpr
          exact ⟨i, List.mem_filter.mpr ⟨hi, by simp [hipid]⟩, rfl⟩
        simpa [List.contains] using this
      rw [hin] at hmem
      cases hmem

/-- Claim C10: on a product that has at least one historical order item,
`deleteProduct` only rewrites the product rows (flipping `isActive` of the
addressed product to false and touching no other field); the image, variant,
category-association, order-item, inventory-log and category tables and the
blob store are all left exactly as they were. -/
theorem claim_C10 (st : Shop) (pid : String) (p : ProductRow)
    (hfind : st.products.find? (fun x => x.id == pid) = some p)
    (horder : productOrderItems st pid ≠ []) :
    (deleteProduct st pid).1.products =
      st.products.map (fun x => if x.id == pid then { x with isActive := false } else x) ∧
    (deleteProduct st pid).1.images = st.images ∧
    (deleteProduct st pid).1.variants = st.variants ∧
    (deleteProduct st pid).1.productCategories = st.productCategories ∧
    (deleteProduct st pid).1.invLogs = st.invLogs ∧
    (deleteProduct st pid).1.orderItems = st.orderItems ∧
    (deleteProduct st pid).1.categories = st.categories ∧
    (deleteProduct st pid).1.blobs = st.blobs := by
  simp only [deleteProduct, hfind]
  rw [if_pos horder]
  exact ⟨rfl, rfl, rfl, rfl, rfl, rfl, rfl, rfl⟩

/-- A shop with one ordered product (one image, one variant) and one
orderless product (one image, one variant), for the C7 and C10 witnesses. -/
def c7Shop : Shop :=
  { products := [{ id := "p1", name := "Alpha", slug := "alpha", isActive := true },
                 { id := "p2", name := "Beta", slug := "beta", isActive := true }],
    categories := [{ id := "c1", parentId := none, image := none }],
    productCategories := [{ productId := "p1", categoryId := "c1", isPrimary := true },
                          { productId := "p2", categoryId := "c1", isPrimary := true }],
    variants := [{ id := "v1", productId := "p1", sku := "S1", flavorId := none,
                   weightId := none, quantity := 3, isActive := true },
                 { id := "v2", productId := "p2", sku := "S2", flavorId := none,
                   weightId := none, quantity := 4, isActive := true }],
    images := [{ id := "i1", productId := "p1", url := "u1", isPrimary := true },
               { id := "i2", productId := "p2", url := "u2", isPrimary := true }],
    orderItems := [{ id := "o1", productId := "p1", variantId := "v1" }],
    invLogs := [], blobs := ["u1", "u2"] }

/-- Witness for claim C7 at the orderless product `p2`: the hard-delete branch
removes the row, its image (with the blob `u2`) and its variant. -/
theorem claim_C7_witness :
    (productOrderItems c7Shop "p2" ≠ [] →
        (deleteProduct c7Shop "p2").2 =
          .deactivated "Product has associated orders and has been marked as inactive" ∧
        (deleteProduct c7Shop "p2").1.products.find? (fun x => x.id == "p2") =
          some { id := "p2", name := "Beta", slug := "beta", isActive := false }) ∧
    (productOrderItems c7Shop "p2" = [] →
        (deleteProduct c7Shop "p2").2 = .deleted "Product deleted successfully" ∧
        (deleteProduct c7Shop "p2").1.products.find? (fun x => x.id == "p2") = none ∧
        (deleteProduct c7Shop "p2").1.images.filter (fun i => i.productId == "p2") = [] ∧
        (deleteProduct c7Shop "p2").1.variants.filter (fun v => v.productId == "p2") = [] ∧
        ∀ i ∈ c7Shop.images, i.productId = "p2" → i.url ∉ (deleteProduct c7Shop "p2").1.blobs) :=
  claim_C7 c7Shop "p2" { id := "p2", name := "Beta", slug := "beta", isActive := true } (by decide)

/-- Witness for claim C10 at the ordered product `p1`: only the product table
changes, and only by the `isActive` flip of `p1`. -/
theorem claim_C10_witness :
    (deleteProduct c7Shop "p1").1.products =
      c7Shop.products.map (fun x => if x.id == "p1" then { x with isActive := false } else x) ∧
    (deleteProduct c7Shop "p1").1.images = c7Shop.images ∧
    (deleteProduct c7Shop "p1").1.variants = c7Shop.variants ∧
    (deleteProduct c7Shop "p1").1.productCategories = c7Shop.productCategories ∧
    (deleteProduct c7Shop "p1").1.invLogs = c7Shop.invLogs ∧
    (deleteProduct c7Shop "p1").1.orderItems = c7Shop.orderItems ∧
    (deleteProduct c7Shop "p1").1.categories = c7Shop.categories ∧
    (deleteProduct c7Shop "p1").1.blobs = c7Shop.blobs :=
  claim_C10 c7Shop "p1" { id := "p1", name := "Alpha", slug := "alpha", isActive := true }
    (by decide) (by decide)

/-- A `countP` splits along any second predicate. -/
theorem countP_split {α : Type} (l : List α) (p q : α → Bool) :
    l.countP p = l.countP (fun a => p a && q a) + l.countP (fun a => p a && !q a) := by
  induction l with
  | nil => rfl
  | cons hd tl ih =>
      cases hp : p hd <;> cases hq : q hd <;>
        simp [List.countP_cons, hp, hq, ih] <;> omega

/-- A list splits lengthwise along a predicate filter. -/
theorem length_filter_split {α : Type} (l : List α) (q : α → Bool) :
    l.length = (l.filter q).length + (l.filter (fun a => !q a)).length := by
  induction l with
  | nil => rfl
  | cons hd tl ih =>
      cases hq : q hd <;> simp [List.filter_cons, hq, ih] <;> omega

/-- In an image table with no duplicate ids, any present id occurs exactly
once. -/
theorem countP_imageId_eq_one (l : List ImageRow) (i : ImageRow)
    (hnd : (l.map (fun x => x.id)).Nodup) (hm : i ∈ l) :
    l.countP (fun x => x.id == i.id) = 1 := by
  have h1 : i.id ∈ l.map (fun x => x.id) := List.mem_map.mpr ⟨i, hm, rfl⟩
  have h2 := List.count_eq_one_of_mem hnd h1
  rw [List.count_eq_countP, List.countP_map] at h2
  simpa using h2

/-- Claim C9: on a product with more than one image (and, as the store
guarantees, unique image ids and at most one primary image per product), a
successful `deleteProductImage` of the primary image leaves the product with
exactly one primary image (the promoted first remaining one), while deleting a
non-primary image removes exactly that row and changes no other image row,
hence no other primary flag. -/
theorem claim_C9 (st : Shop) (imageId : String) (img : ImageRow)
    (hfind : st.images.find? (fun i => i.id == imageId) = some img)
    (hnd : (st.images.map (fun i => i.id)).Nodup)
    (hlen : (st.images.filter (fun i => i.productId == img.productId)).length ≠ 1) :
    (img.isPrimary = false →
        (deleteProductImage st imageId).2 = none ∧
        (deleteProductImage st imageId).1.images
          = st.images.filter (fun i => !(i.id == imageId))) ∧
    (img.isPrimary = true →
        (st.images.filter (fun i => i.productId == img.productId)).countP
            (fun i => i.isPrimary) = 1 →
        (deleteProductImage st imageId).2 = none ∧
        ((deleteProductImage st imageId).1.images.filter
            (fun i => i.productId == img.productId)).countP (fun i => i.isPrimary) = 1) := by
  have hlenB : ¬ (((st.images.filter (fun i => i.productId == img.productId)).length == 1)
      = true) := by simp [hlen]
  have himg_mem_st : img ∈ st.images := List.mem_of_find?_eq_some hfind
  have himg_id : img.id = imageId := by simpa using List.find?_some hfind
  constructor
  · intro hp
    have hnp : ¬ (img.isPrimary = true) := by simp [hp]
    simp only [deleteProductImage, hfind]
    rw [if_neg hlenB, if_neg hnp]
    exact ⟨rfl, rfl⟩
  · intro hp hcp
    have himg_mem : img ∈ st.images.filter (fun i => i.productId == img.productId) :=
      List.mem_filter.mpr ⟨himg_mem_st, by simp⟩
    have hG1 : st.images.countP (fun x => x.id == imageId) = 1 := by
      have := countP_imageId_eq_one st.images img hnd himg_mem_st
      rwa [himg_id] at this
    have hc_le : (st.images.filter (fun i => i.productId == img.productId)).countP
        (fun x => x.id == imageId) ≤ 1 := by
      calc (st.images.filter (fun i => i.productId == img.productId)).countP
            (fun x => x.id == imageId)
          ≤ st.images.countP (fun x => x.id == imageId) :=
            (List.filter_sublist _).countP_le _
        _ = 1 := hG1
    have hpImgs_pos : 1 ≤ (st.images.filter (fun i => i.productId == img.productId)).length :=
      List.length_pos.mpr (List.ne_nil_of_mem himg_mem)
    have hpImgs_two : 2 ≤ (st.images.filter (fun i => i.productId == img.productId)).length := by
      omega
    have hsplit := length_filter_split
      (st.images.filter (fun i => i.productId == img.productId)) (fun i => i.id == imageId)
    have hcfilter : ((st.images.filter (fun i => i.productId == img.productId)).filter
        (fun i => i.id == imageId)).length ≤ 1 := by
      rw [← List.countP_eq_length_filter]
      exact hc_le
    have hrem_len : 1 ≤ ((st.images.filter (fun i => i.productId == img.productId)).filter
        (fun i => !(i.id == imageId))).length := by
      omega
    obtain ⟨first, rest, hr⟩ :
        ∃ first rest, (st.images.filter (fun i => i.productId == img.productId)).filter
          (fun i => !(i.id == imageId)) = first :: rest := by
      cases hc : (st.images.filter (fun i => i.productId == img.productId)).filter
          (fun i => !(i.id == imageId)) with
      | nil =>
          rw [hc] at hrem_len
          cases hrem_len
      | cons a b => exact ⟨a, b, rfl⟩
    simp only [deleteProductImage, hfind]
    rw [if_neg hlenB, if_pos hp, hr]
    simp only [List.head?_cons]
    refine ⟨by trivial, ?_⟩
    -- the image table of the committed state, restricted to the product
    have h1 : ((st.images.filter (fun i => !(i.id == imageId))).map (fun i =>
          if i.id == first.id then { i with isPrimary := true } else i)).filter
            (fun i => i.productId == img.productId)
        = ((st.images.filter (fun i => !(i.id == imageId))).filter
            (fun i => i.productId == img.productId)).map (fun i =>
          if i.id == first.id then { i with isPrimary := true } else i) := by
      rw [List.filter_map]
      congr 1
      apply List.filter_congr
      intro x hx
      by_cases h : x.id = first.id <;> simp [h]
    have h2 : (st.images.filter (fun i => !(i.id == imageId))).filter
          (fun i => i.productId == img.productId)
        = (st.images.filter (fun i => i.productId == img.productId)).filter
          (fun i => !(i.id == imageId)) := by
      rw [List.filter_filter, List.filter_filter]
      apply List.filter_congr
      intro x hx
      exact Bool.and_comm _ _
    have hS5 : ∀ x ∈ (st.images.filter (fun i => i.productId == img.productId)).filter
        (fun i => !(i.id == imageId)), x.isPrimary = false := by
      have hsplitP := countP_split
        (st.images.filter (fun i => i.productId == img.productId))
        (fun i => i.isPrimary) (fun i => i.id == imageId)
      have hpos : 0 < (st.images.filter (fun i => i.productId == img.productId)).countP
          (fun a => a.isPrimary && (a.id == imageId)) :=
        List.countP_pos_iff.mpr ⟨img, himg_mem, by simp [hp, himg_id]⟩
      have hfilterP := List.countP_filter (fun i => i.isPrimary)
        (fun i => !(i.id == imageId))
        (st.images.filter (fun i => i.productId == img.productId))
      have hzero : ((st.images.filter (fun i => i.productId == img.productId)).filter
          (fun i => !(i.id == imageId))).countP (fun i => i.isPrimary) = 0 := by
        omega
      intro x hx
      have := List.countP_eq_zero.mp hzero x hx
      simpa using this
    have hnd_rem : (((st.images.filter (fun i => i.productId == img.productId)).filter
        (fun i => !(i.id == imageId))).map (fun x => x.id)).Nodup := by
      apply List.Nodup.sublist _ hnd
      exact List.Sublist.map _ ((List.filter_sublist _).trans (List.filter_sublist _))
    have hfirst_mem : first ∈ (st.images.filter (fun i => i.productId == img.productId)).filter
        (fun i => !(i.id == imageId)) := by
      rw [hr]
      exact List.mem_cons_self _ _
    have hS6 := countP_imageId_eq_one _ first hnd_rem hfirst_mem
    rw [h1, h2, List.countP_map]
    have hcongr : ((st.images.filter (fun i => i.productId == img.productId)).filter
          (fun i => !(i.id == imageId))).countP ((fun i => i.isPrimary) ∘ (fun i =>
            if i.id == first.id then { i with isPrimary := true } else i))
        = ((st.images.filter (fun i => i.productId == img.productId)).filter
          (fun i => !(i.id == imageId))).countP (fun x => x.id == first.id) := by
      apply List.countP_congr
      intro x hx
      by_cases h : x.id = first.id <;> simp [Function.comp, h, hS5 x hx]
    rw [hcongr]
    exact hS6

/-- A shop whose product `p1` carries three images, the first primary, for the
C9 witness. -/
def c9Shop : Shop :=
  { products := [{ id := "p1", name := "Alpha", slug := "alpha", isActive := true }],
    categories := [], productCategories := [], variants := [],
    images := [{ id := "i1", productId := "p1", url := "u1", isPrimary := true },
               { id := "i2", productId := "p1", url := "u2", isPrimary := false },
               { id := "i3", productId := "p1", url := "u3", isPrimary := false }],
    orderItems := [], invLogs := [], blobs := ["u1", "u2", "u3"] }

/-- Witness for claim C9 at the primary image `i1` of `c9Shop`: after its
deletion the product still has exactly one primary image. -/
theorem claim_C9_witness :
    ((true : Bool) = false →
        (deleteProductImage c9Shop "i1").2 = none ∧
        (deleteProductImage c9Shop "i1").1.images
          = c9Shop.images.filter (fun i => !(i.id == "i1"))) ∧
    ((true : Bool) = true →
        (c9Shop.images.filter (fun i => i.productId == "p1")).countP
            (fun i => i.isPrimary) = 1 →
        (deleteProductImage c9Shop "i1").2 = none ∧
        ((deleteProductImage c9Shop "i1").1.images.filter
            (fun i => i.productId == "p1")).countP (fun i => i.isPrimary) = 1) :=
  claim_C9 c9Shop "i1" { id := "i1", productId := "p1", url := "u1", isPrimary := true }
    (by decide) (by decide) (by decide)

/-! ### Lemmas for the Cartesian variant generation (claim C5) -/

/-- The generated column for one flavor is as long as the selected weight list
minus the combinations already present. -/
theorem genCol_length (variants : List VForm) (f : String) (selW : List String) :
    (selW.filterMap (fun w => if variantExists variants f w then none
        else some ({ flavorId := some f, weightId := some w } : VForm))).length
      = selW.length - (selW.filter (fun w => variantExists variants f w)).length := by
  induction selW with
  | nil => rfl
  | cons w ws ih =>
      have hle := List.length_filter_le (fun w => variantExists variants f w) ws
      cases hw : variantExists variants f w <;>
        simp [List.filterMap_cons, List.filter_cons, hw, ih] <;> omega

/-- The number of already-present combinations is at most the size of the
selection grid. -/
theorem genPresent_bound (variants : List VForm) (selF selW : List String) :
    presentCount variants selF selW ≤ selF.length * selW.length := by
  induction selF with
  | nil => simp [presentCount]
  | cons f fs ih =>
      have hle := List.length_filter_le (fun w => variantExists variants f w) selW
      simp only [presentCount] at ih
      simp only [presentCount, List.flatMap_cons, List.length_append, List.length_cons,
        Nat.succ_mul]
      omega

/-- Length of the generated Cartesian block: grid size minus the combinations
already present. -/
theorem genNew_length (variants : List VForm) (selF selW : List String) :
    (selF.flatMap (fun f => selW.filterMap (fun w =>
        if variantExists variants f w then none
        else some ({ flavorId := some f, weightId := some w } : VForm)))).length
      = selF.length * selW.length - presentCount variants selF selW := by
  induction selF with
  | nil => simp [presentCount]
  | cons f fs ih =>
      have hle := List.length_filter_le (fun w => variantExists variants f w) selW
      have hbound := genPresent_bound variants fs selW
      simp only [presentCount] at hbound
      simp only [List.flatMap_cons, List.length_append, ih, genCol_length,
        presentCount, List.length_cons, Nat.succ_mul]
      omega

/-- The combinations of the generated Cartesian block, as bare pairs. -/
theorem combos_gen (variants : List VForm) (selF selW : List String) :
    combos (selF.flatMap (fun f => selW.filterMap (fun w =>
        if variantExists variants f w then none
        else some ({ flavorId := some f, weightId := some w } : VForm))))
      = selF.flatMap (fun f => selW.filterMap (fun w =>
        if variantExists variants f w then none
        else some ((some f, some w) : Option String × Option String))) := by
  unfold combos
  rw [List.map_flatMap]
  congr 1
  funext f
  rw [List.map_filterMap]
  congr 1
  funext w
  by_cases h : variantExists variants f w <;> simp [h]

/-- Membership in one generated column forces the shape of the pair. -/
theorem genCol_mem {variants : List VForm} {f : String} {selW : List String}
    {x : Option String × Option String}
    (hx : x ∈ selW.filterMap (fun w => if variantExists variants f w then none
        else some ((some f, some w) : Option String × Option String))) :
    ∃ w ∈ selW, x = (some f, some w) ∧ variantExists variants f w = false := by
  obtain ⟨w, hw, hgw⟩ := List.mem_filterMap.mp hx
  by_cases h : variantExists variants f w
  · simp [h] at hgw
  · refine ⟨w, hw, ?_, by simpa using h⟩
    simp only [h, Bool.false_eq_true, if_false] at hgw
    exact (Option.some.injEq _ _ ▸ hgw).symm

/-- The combinations of the generated Cartesian block contain no duplicates
when the two selections are duplicate-free. -/
theorem genNew_combos_nodup (variants : List VForm) (selF selW : List String)
    (hF : selF.Nodup) (hW : selW.Nodup) :
    (selF.flatMap (fun f => selW.filterMap (fun w =>
        if variantExists variants f w then none
        else some ((some f, some w) : Option String × Option String)))).Nodup := by
  rw [List.nodup_flatMap]
  constructor
  · intro f hf
    apply List.Nodup.filterMap _ hW
    intro w w' b hb hb'
    by_cases h1 : variantExists variants f w
    · simp [h1] at hb
    · by_cases h2 : variantExists variants f w'
      · simp [h2] at hb'
      · simp only [h1, h2, Bool.false_eq_true, if_false, Option.mem_def,
          Option.some.injEq] at hb hb'
        rw [← hb] at hb'
        have hsnd := congrArg Prod.snd hb'
        simp at hsnd
        exact hsnd.symm
  · apply List.Pairwise.imp _ hF
    intro f1 f2 hne x hx1 hx2
    obtain ⟨w1, _, hx1e, _⟩ := genCol_mem hx1
    obtain ⟨w2, _, hx2e, _⟩ := genCol_mem hx2
    rw [hx1e] at hx2e
    have := congrArg Prod.fst hx2e
    simp at this
    exact hne this

/-- Claim C5 (amended): with both axes selected (duplicate-free selections and
a duplicate-free current combination set), `generateVariants` appends exactly
|F|·|W| minus the already-present combinations, and the resulting combination
set is still duplicate-free; with only one axis selected it appends one
variant per selected element with the other axis null, without checking for
already existing combinations — so in the single-axis modes duplicates with
existing variants can result (see the counterexample). -/
theorem claim_C5_amended (variants : List VForm) (selF selW : List String)
    (hF : selF.Nodup) (hW : selW.Nodup) (hvar : (combos variants).Nodup) :
    (selF ≠ [] → selW ≠ [] →
        (generateVariants variants selF selW).length
          = variants.length + (selF.length * selW.length - presentCount variants selF selW) ∧
        (combos (generateVariants variants selF selW)).Nodup) ∧
    (selF = [] → generateVariants variants selF selW
        = variants ++ selW.map (fun w => { flavorId := none, weightId := some w })) ∧
    (selW = [] → generateVariants variants selF selW
        = variants ++ selF.map (fun f => { flavorId := some f, weightId := none })) := by
  refine ⟨?_, ?_, ?_⟩
  · intro hFne hWne
    have hFe : selF.isEmpty = false := by simp [List.isEmpty_iff, hFne]
    have hWe : selW.isEmpty = false := by simp [List.isEmpty_iff, hWne]
    have hgen : generateVariants variants selF selW
        = variants ++ selF.flatMap (fun f => selW.filterMap (fun w =>
            if variantExists variants f w then none
            else some ({ flavorId := some f, weightId := some w } : VForm))) := by
      simp [generateVariants, hFe, hWe]
    constructor
    · rw [hgen, List.length_append, genNew_length]
    · rw [hgen]
      rw [show combos (variants ++ selF.flatMap (fun f => selW.filterMap (fun w =>
            if variantExists variants f w then none
            else some ({ flavorId := some f, weightId := some w } : VForm))))
          = combos variants ++ combos (selF.flatMap (fun f => selW.filterMap (fun w =>
            if variantExists variants f w then none
            else some ({ flavorId := some f, weightId := some w } : VForm))))
        from List.map_append _ _ _]
      refine List.Nodup.append hvar ?_ ?_
      · rw [combos_gen]
        exact genNew_combos_nodup variants selF selW hF hW
      · rw [combos_gen]
        intro x hx1 hx2
        obtain ⟨f, hf, hxcol⟩ := List.mem_flatMap.mp hx2
        obtain ⟨w, hw, hxe, hpres⟩ := genCol_mem hxcol
        obtain ⟨v, hv, hve⟩ := List.mem_map.mp hx1
        have : variantExists variants f w = true := by
          apply List.any_eq_true.mpr
          refine ⟨v, hv, ?_⟩
          rw [hxe] at hve
          have h1 := congrArg Prod.fst hve
          have h2 := congrArg Prod.snd hve
          simp at h1 h2
          simp [h1, h2]
        rw [this] at hpres
        cases hpres
  · intro hFnil
    subst hFnil
    cases selW with
    | nil => simp [generateVariants]
    | cons w ws => simp [generateVariants]
  · intro hWnil
    subst hWnil
    cases selF with
    | nil => simp [generateVariants]
    | cons f fs => simp [generateVariants]

/-- The one-existing-variant, two-flavors, two-weights selection of the C5
witness. -/
def c5Existing : List VForm :=
  [{ flavorId := some "f1", weightId := some "w1" }]

/-- Witness for claim C5 (amended) at two selected flavors and two selected
weights with one combination already present: three new variants are appended
and the combination set stays duplicate-free. -/
theorem claim_C5_amended_witness :
    (["f1", "f2"] ≠ ([] : List String) → ["w1", "w2"] ≠ ([] : List String) →
        (generateVariants c5Existing ["f1", "f2"] ["w1", "w2"]).length
          = c5Existing.length +
              (["f1", "f2"].length * ["w1", "w2"].length -
                presentCount c5Existing ["f1", "f2"] ["w1", "w2"]) ∧
        (combos (generateVariants c5Existing ["f1", "f2"] ["w1", "w2"])).Nodup) ∧
    (["f1", "f2"] = ([] : List String) →
        generateVariants c5Existing ["f1", "f2"] ["w1", "w2"]
          = c5Existing ++ ["w1", "w2"].map (fun w => { flavorId := none, weightId := some w })) ∧
    (["w1", "w2"] = ([] : List String) →
        generateVariants c5Existing ["f1", "f2"] ["w1", "w2"]
          = c5Existing ++ ["f1", "f2"].map (fun f => { flavorId := some f, weightId := none })) :=
  claim_C5_amended c5Existing ["f1", "f2"] ["w1", "w2"]
    (by decide) (by decide) (by decide)

end Ecom
